import Mathlib

/-!
Verification of the Potential abstraction and composition layer of
`galpy/potential_src/Potential.py`.

Shallow embedding choices:
* Python floats are modelled as rationals (`ℚ`); the claims under scrutiny
  are exact algebraic identities of the layer, not IEEE-754 rounding facts.
* A concrete potential variant supplies optional raw functions
  `_evaluate`, `_Rforce`, `_zforce`, `_phiforce`, `_dens`; a missing method
  (Python `AttributeError` in the `try`/`except` of the source) is an
  `Option` that is `none`.  The base class itself defines `_phiforce`
  returning `0.`, so `phiforce` never fails.
* Fallible operations return `Except PyError ℚ`; the only error this
  layer ever raises is `PotentialError` with its message.
* `normalize` executes `self._amp *= norm/nu.fabs(self.Rforce(1.,0.))`.
  `nu` is numpy, so when the reference force is zero the division is
  numpy float64 division by `0.0`: under the default `divide='warn'`
  error state it yields `inf`, `-inf` or `nan` with a `RuntimeWarning`,
  raises no exception, and the non-finite product is stored as the
  amplitude.  Rationals cannot hold these values, so `normalize` returns
  a `NormalizeOutcome` whose `nonFiniteAmp` case records which
  non-finite amplitude got stored.
* The `Pot` argument of the five composition functions is a Python object
  inspected with `isinstance`; `PyObj` models the runtime shapes relevant
  here: a `Potential`, a `list` of potentials, a `tuple` of potentials,
  a `str`, an `int`.
* The optional azimuth (3- vs 4-argument call) is an `Option ℚ` threaded
  through unchanged to the raw functions.
* Python's `normalize(True)` computes `True/fabs(...)`, and `True == 1`
  in Python arithmetic, so the boolean case is the rational argument `1`.
-/

namespace Galpy

/-- Error values raised by the layer: the distinguished `PotentialError`
exception with its message (the only exception this code raises). -/
inductive PyError where
  | potentialError : String → PyError
deriving DecidableEq, Repr

/-- A raw (amplitude-1) evaluation function supplied by a concrete
potential variant: arguments are `R`, `z` and an optional azimuth. -/
def RawFun : Type := ℚ → ℚ → Option ℚ → ℚ

/-- The `Potential` base class state: the amplitude `_amp` plus the
informational flags set in `__init__`, and the raw functions the concrete
variant supplies (`none` models a missing attribute). -/
structure Potential where
  amp : ℚ
  dim : ℤ
  isRZ : Bool
  isNonAxi : Bool
  rawEvaluate : Option RawFun
  rawRforce : Option RawFun
  rawZforce : Option RawFun
  rawPhiforce : Option RawFun
  rawDens : Option RawFun

/-- Message of the `PotentialError` raised by `__call__`. -/
def msgNoEvaluate : String := "\x27_evaluate\x27 function not implemented for this potential"

/-- Message of the `PotentialError` raised by `Rforce`. -/
def msgNoRforce : String := "\x27_Rforce\x27 function not implemented for this potential"

/-- Message of the `PotentialError` raised by `zforce`. -/
def msgNoZforce : String := "\x27_zforce\x27 function not implemented for this potential"

/-- Message of the `PotentialError` raised by `dens`. -/
def msgNoDens : String := "\x27_dens\x27 function not implemented for this potential"

/-- `Potential.__call__`: `self._amp*self._evaluate(*args)`, raising
`PotentialError` when `_evaluate` is missing. -/
def Potential.call (p : Potential) (R z : ℚ) (phi : Option ℚ) : Except PyError ℚ :=
  match p.rawEvaluate with
  | some f => .ok (p.amp * f R z phi)
  | none => .error (.potentialError msgNoEvaluate)

/-- `Potential.Rforce`: `self._amp*self._Rforce(*args)`, raising
`PotentialError` when `_Rforce` is missing. -/
def Potential.Rforce (p : Potential) (R z : ℚ) (phi : Option ℚ) : Except PyError ℚ :=
  match p.rawRforce with
  | some f => .ok (p.amp * f R z phi)
  | none => .error (.potentialError msgNoRforce)

/-- `Potential.zforce`: `self._amp*self._zforce(*args)`, raising
`PotentialError` when `_zforce` is missing. -/
def Potential.zforce (p : Potential) (R z : ℚ) (phi : Option ℚ) : Except PyError ℚ :=
  match p.rawZforce with
  | some f => .ok (p.amp * f R z phi)
  | none => .error (.potentialError msgNoZforce)

/-- `Potential.dens`: `self._amp*self._dens(*args)`, raising
`PotentialError` when `_dens` is missing. -/
def Potential.dens (p : Potential) (R z : ℚ) (phi : Option ℚ) : Except PyError ℚ :=
  match p.rawDens with
  | some f => .ok (p.amp * f R z phi)
  | none => .error (.potentialError msgNoDens)

/-- `Potential.phiforce`: `self._amp*self._phiforce(*args)`; the base class
defines `_phiforce` returning `0.`, so when the variant supplies no
override the result is `self._amp * 0.` and no error is raised. -/
def Potential.phiforce (p : Potential) (R z : ℚ) (phi : Option ℚ) : Except PyError ℚ :=
  match p.rawPhiforce with
  | some f => .ok (p.amp * f R z phi)
  | none => .ok (p.amp * 0)

/-- The non-finite IEEE-754 values a numpy float64 operation can
produce: positive infinity, negative infinity, not-a-number. -/
inductive NonFinite where
  | inf : NonFinite
  | negInf : NonFinite
  | nan : NonFinite
deriving DecidableEq, Repr

/-- The non-finite value `amp * (norm / 0.0)` that numpy float64
arithmetic produces when the reference force is zero: `norm / 0.0` is
`inf`, `-inf` or `nan` according to the sign of `norm`, and multiplying
by `amp` flips the sign for negative `amp` and gives `nan` for
`amp = 0` (IEEE `0 * inf = nan`). -/
def nonFiniteNewAmp (amp norm : ℚ) : NonFinite :=
  if norm = 0 then .nan
  else if amp = 0 then .nan
  else if (0 < norm ↔ 0 < amp) then .inf
  else .negInf

/-- The outcome of `Potential.normalize`: a potential with the finite
rescaled amplitude stored, or — when the reference force is zero — the
non-finite amplitude that numpy division by `0.0` silently stores (a
`RuntimeWarning` is emitted, no exception is raised), or a propagated
`PotentialError` from the `Rforce` call. -/
inductive NormalizeOutcome where
  | ok : Potential → NormalizeOutcome
  | nonFiniteAmp : NonFinite → NormalizeOutcome
  | error : PyError → NormalizeOutcome

/-- `Potential.normalize`: `self._amp *= norm/nu.fabs(self.Rforce(1.,0.))`.
A missing `_Rforce` propagates its `PotentialError`.  When the reference
radial force is zero, `nu.fabs` returns `0.0` and the numpy float64
division yields a non-finite value with only a `RuntimeWarning`; the
in-place multiplication then stores that non-finite amplitude. -/
def Potential.normalize (p : Potential) (norm : ℚ) : NormalizeOutcome :=
  match p.Rforce 1 0 none with
  | .error e => .error e
  | .ok fr =>
    if |fr| = 0 then .nonFiniteAmp (nonFiniteNewAmp p.amp norm)
    else .ok { p with amp := p.amp * (norm / |fr|) }

/-- The runtime shapes a `Pot` argument of the composition functions can
take: a `Potential` instance, a `list` of potentials, a `tuple` of
potentials, a `str`, or an `int`. -/
inductive PyObj where
  | pot : Potential → PyObj
  | list : List Potential → PyObj
  | tuple : List Potential → PyObj
  | str : String → PyObj
  | int : ℤ → PyObj

/-- Message of the `PotentialError` raised by `evaluatePotentials` on an
invalid `Pot` argument. -/
def msgBadPotentials : String := "Input to \x27evaluatePotentials\x27 is neither a Potential-instance or a list of such instances"

/-- Message of the `PotentialError` raised by `evaluateDensities` on an
invalid `Pot` argument. -/
def msgBadDensities : String := "Input to \x27evaluateDensities\x27 is neither a Potential-instance or a list of such instances"

/-- Message of the `PotentialError` raised by `evaluateRforces` on an
invalid `Pot` argument. -/
def msgBadRforces : String := "Input to \x27evaluateRforces\x27 is neither a Potential-instance or a list of such instances"

/-- Message of the `PotentialError` raised by `evaluatephiforces` on an
invalid `Pot` argument. -/
def msgBadphiforces : String := "Input to \x27evaluatephiforces\x27 is neither a Potential-instance or a list of such instances"

/-- Message of the `PotentialError` raised by `evaluatezforces` on an
invalid `Pot` argument. -/
def msgBadzforces : String := "Input to \x27evaluatezforces\x27 is neither a Potential-instance or a list of such instances"

/-- The accumulation loop `sum = 0.; for pot in Pot: sum += op(pot)`
shared by all five composition functions, with an error from any element
aborting the whole call. -/
def sumOver (op : Potential → Except PyError ℚ) : List Potential → ℚ → Except PyError ℚ
  | [], acc => .ok acc
  | p :: ps, acc =>
    match op p with
    | .error e => .error e
    | .ok v => sumOver op ps (acc + v)

/-- The common body of the composition functions: a `list` is summed over,
a single `Potential` is delegated to, anything else raises the given
`PotentialError`. -/
def composeEval (errMsg : String) (op : Potential → Except PyError ℚ) :
    PyObj → Except PyError ℚ
  | .list ps => sumOver op ps 0
  | .pot p => op p
  | _ => .error (.potentialError errMsg)

/-- `evaluatePotentials(R, z, [phi,] Pot)`. -/
def evaluatePotentials (R z : ℚ) (phi : Option ℚ) (Pot : PyObj) : Except PyError ℚ :=
  composeEval msgBadPotentials (fun p => p.call R z phi) Pot

/-- `evaluateDensities(R, z, [phi,] Pot)`. -/
def evaluateDensities (R z : ℚ) (phi : Option ℚ) (Pot : PyObj) : Except PyError ℚ :=
  composeEval msgBadDensities (fun p => p.dens R z phi) Pot

/-- `evaluateRforces(R, z, [phi,] Pot)`. -/
def evaluateRforces (R z : ℚ) (phi : Option ℚ) (Pot : PyObj) : Except PyError ℚ :=
  composeEval msgBadRforces (fun p => p.Rforce R z phi) Pot

/-- `evaluatephiforces(R, z, [phi,] Pot)`. -/
def evaluatephiforces (R z : ℚ) (phi : Option ℚ) (Pot : PyObj) : Except PyError ℚ :=
  composeEval msgBadphiforces (fun p => p.phiforce R z phi) Pot

/-- `evaluatezforces(R, z, [phi,] Pot)`. -/
def evaluatezforces (R z : ℚ) (phi : Option ℚ) (Pot : PyObj) : Except PyError ℚ :=
  composeEval msgBadzforces (fun p => p.zforce R z phi) Pot

/-- A concrete variant whose raw evaluate, radial force, vertical force
and density are constantly `1`, with amplitude `2` and no `_phiforce`
override. -/
def testPot : Potential :=
  { amp := 2, dim := 3, isRZ := true, isNonAxi := false,
    rawEvaluate := some (fun _ _ _ => 1),
    rawRforce := some (fun _ _ _ => 1),
    rawZforce := some (fun _ _ _ => 1),
    rawPhiforce := none,
    rawDens := some (fun _ _ _ => 1) }

/-- A concrete variant supplying no raw density (and no raw anything but
the radial force). -/
def testPotNoDens : Potential :=
  { amp := 1, dim := 3, isRZ := true, isNonAxi := false,
    rawEvaluate := none,
    rawRforce := some (fun _ _ _ => 1),
    rawZforce := none,
    rawPhiforce := none,
    rawDens := none }

/-- A concrete variant whose raw radial force is identically zero. -/
def zeroForcePot : Potential :=
  { amp := 1, dim := 3, isRZ := true, isNonAxi := false,
    rawEvaluate := some (fun _ _ _ => 1),
    rawRforce := some (fun _ _ _ => 0),
    rawZforce := none,
    rawPhiforce := none,
    rawDens := none }

lemma composeEval_singleton (m : String) (op : Potential → Except PyError ℚ)
    (P : Potential) :
    composeEval m op (.list [P]) = composeEval m op (.pot P) := by
  cases h : op P with
  | error e => simp [composeEval, sumOver, h]
  | ok v => simp [composeEval, sumOver, h]

/-- Claim C9: each of the five composition functions applied to the empty list
returns `0.0` (the loop accumulator starts at `0.` and no potential is
consulted) and raises no error. -/
theorem compose_empty_list_zero (R z : ℚ) (phi : Option ℚ) :
    evaluatePotentials R z phi (.list []) = .ok 0 ∧
    evaluateDensities R z phi (.list []) = .ok 0 ∧
    evaluateRforces R z phi (.list []) = .ok 0 ∧
    evaluatephiforces R z phi (.list []) = .ok 0 ∧
    evaluatezforces R z phi (.list []) = .ok 0 :=
  ⟨rfl, rfl, rfl, rfl, rfl⟩

/-- Claim C10: only the built-in `list` type is recognised as a collection:
a tuple of Potentials falls through both `isinstance` checks and every
composition function raises `PotentialError` on it. -/
theorem compose_tuple_raises (R z : ℚ) (phi : Option ℚ) (ps : List Potential) :
    evaluatePotentials R z phi (.tuple ps) = .error (.potentialError msgBadPotentials) ∧
    evaluateDensities R z phi (.tuple ps) = .error (.potentialError msgBadDensities) ∧
    evaluateRforces R z phi (.tuple ps) = .error (.potentialError msgBadRforces) ∧
    evaluatephiforces R z phi (.tuple ps) = .error (.potentialError msgBadphiforces) ∧
    evaluatezforces R z phi (.tuple ps) = .error (.potentialError msgBadzforces) :=
  ⟨rfl, rfl, rfl, rfl, rfl⟩

/-- Claim C7: a `Pot` argument that is neither a `Potential` nor a `list` of
them — a string or an integer — makes every composition function raise
`PotentialError` with the message naming the offending function. -/
theorem compose_invalid_input_raises (R z : ℚ) (phi : Option ℚ) (s : String) (n : ℤ) :
    evaluatePotentials R z phi (.str s) = .error (.potentialError msgBadPotentials) ∧
    evaluatePotentials R z phi (.int n) = .error (.potentialError msgBadPotentials) ∧
    evaluateDensities R z phi (.str s) = .error (.potentialError msgBadDensities) ∧
    evaluateDensities R z phi (.int n) = .error (.potentialError msgBadDensities) ∧
    evaluateRforces R z phi (.str s) = .error (.potentialError msgBadRforces) ∧
    evaluateRforces R z phi (.int n) = .error (.potentialError msgBadRforces) ∧
    evaluatephiforces R z phi (.str s) = .error (.potentialError msgBadphiforces) ∧
    evaluatephiforces R z phi (.int n) = .error (.potentialError msgBadphiforces) ∧
    evaluatezforces R z phi (.str s) = .error (.potentialError msgBadzforces) ∧
    evaluatezforces R z phi (.int n) = .error (.potentialError msgBadzforces) :=
  ⟨rfl, rfl, rfl, rfl, rfl, rfl, rfl, rfl, rfl, rfl⟩

/-- Claim C4: passing a one-element list is equivalent to passing the instance
directly, for each of the five composition functions. -/
theorem compose_single_vs_list (R z : ℚ) (phi : Option ℚ) (P : Potential) :
    evaluatePotentials R z phi (.list [P]) = evaluatePotentials R z phi (.pot P) ∧
    evaluateDensities R z phi (.list [P]) = evaluateDensities R z phi (.pot P) ∧
    evaluateRforces R z phi (.list [P]) = evaluateRforces R z phi (.pot P) ∧
    evaluatephiforces R z phi (.list [P]) = evaluatephiforces R z phi (.pot P) ∧
    evaluatezforces R z phi (.list [P]) = evaluatezforces R z phi (.pot P) :=
  ⟨composeEval_singleton _ _ P, composeEval_singleton _ _ P,
   composeEval_singleton _ _ P, composeEval_singleton _ _ P,
   composeEval_singleton _ _ P⟩

/-- Claim C6: a variant with no raw azimuthal-force override gets the base
class's `_phiforce`, which returns `0.`, so `phiforce` returns `0.0` and
never raises; every other evaluation operation raises `PotentialError`
when its raw implementation is missing. -/
theorem phiforce_default_zero (p : Potential) (R z : ℚ) (phi : Option ℚ)
    (h : p.rawPhiforce = none) :
    p.phiforce R z phi = .ok 0 ∧
    (p.rawEvaluate = none → p.call R z phi = .error (.potentialError msgNoEvaluate)) ∧
    (p.rawRforce = none → p.Rforce R z phi = .error (.potentialError msgNoRforce)) ∧
    (p.rawZforce = none → p.zforce R z phi = .error (.potentialError msgNoZforce)) ∧
    (p.rawDens = none → p.dens R z phi = .error (.potentialError msgNoDens)) := by
  refine ⟨?_, fun he => ?_, fun hr => ?_, fun hz => ?_, fun hd => ?_⟩
  · simp [Potential.phiforce, h]
  · simp [Potential.call, he]
  · simp [Potential.Rforce, hr]
  · simp [Potential.zforce, hz]
  · simp [Potential.dens, hd]

/-- Witness for C6 at the concrete variant `testPot`, which has no raw
azimuthal force. -/
theorem phiforce_default_zero_witness :
    testPot.phiforce 1 0 (some 1) = .ok 0 ∧
    (testPot.rawEvaluate = none →
      testPot.call 1 0 (some 1) = .error (.potentialError msgNoEvaluate)) ∧
    (testPot.rawRforce = none →
      testPot.Rforce 1 0 (some 1) = .error (.potentialError msgNoRforce)) ∧
    (testPot.rawZforce = none →
      testPot.zforce 1 0 (some 1) = .error (.potentialError msgNoZforce)) ∧
    (testPot.rawDens = none →
      testPot.dens 1 0 (some 1) = .error (.potentialError msgNoDens)) :=
  phiforce_default_zero testPot 1 0 (some 1) rfl

/-- Claim C2: amplitude linearity — every public operation of an instance of a
variant constructed with amplitude `k` returns `k` times what the same
variant constructed with amplitude `1` returns (including the error cases,
which are identical on both sides). -/
theorem amplitude_linearity (p : Potential) (k R z : ℚ) (phi : Option ℚ)
    (hk : 0 < k) :
    ({ p with amp := k } : Potential).call R z phi =
      Except.map (fun v => k * v) (({ p with amp := 1 } : Potential).call R z phi) ∧
    ({ p with amp := k } : Potential).Rforce R z phi =
      Except.map (fun v => k * v) (({ p with amp := 1 } : Potential).Rforce R z phi) ∧
    ({ p with amp := k } : Potential).zforce R z phi =
      Except.map (fun v => k * v) (({ p with amp := 1 } : Potential).zforce R z phi) ∧
    ({ p with amp := k } : Potential).phiforce R z phi =
      Except.map (fun v => k * v) (({ p with amp := 1 } : Potential).phiforce R z phi) ∧
    ({ p with amp := k } : Potential).dens R z phi =
      Except.map (fun v => k * v) (({ p with amp := 1 } : Potential).dens R z phi) := by
  refine ⟨?_, ?_, ?_, ?_, ?_⟩
  · cases h : p.rawEvaluate <;> simp [Potential.call, h, Except.map]
  · cases h : p.rawRforce <;> simp [Potential.Rforce, h, Except.map]
  · cases h : p.rawZforce <;> simp [Potential.zforce, h, Except.map]
  · cases h : p.rawPhiforce <;> simp [Potential.phiforce, h, Except.map]
  · cases h : p.rawDens <;> simp [Potential.dens, h, Except.map]

/-- Witness for C2 at `testPot` with `k = 2` and position `(1, 0)`. -/
theorem amplitude_linearity_witness :
    ({ testPot with amp := 2 } : Potential).call 1 0 none =
      Except.map (fun v => 2 * v) (({ testPot with amp := 1 } : Potential).call 1 0 none) ∧
    ({ testPot with amp := 2 } : Potential).Rforce 1 0 none =
      Except.map (fun v => 2 * v) (({ testPot with amp := 1 } : Potential).Rforce 1 0 none) ∧
    ({ testPot with amp := 2 } : Potential).zforce 1 0 none =
      Except.map (fun v => 2 * v) (({ testPot with amp := 1 } : Potential).zforce 1 0 none) ∧
    ({ testPot with amp := 2 } : Potential).phiforce 1 0 none =
      Except.map (fun v => 2 * v) (({ testPot with amp := 1 } : Potential).phiforce 1 0 none) ∧
    ({ testPot with amp := 2 } : Potential).dens 1 0 none =
      Except.map (fun v => 2 * v) (({ testPot with amp := 1 } : Potential).dens 1 0 none) :=
  amplitude_linearity testPot 2 1 0 none (by norm_num)

lemma sumOver_pair (op : Potential → Except PyError ℚ) (P1 P2 : Potential)
    (v1 v2 : ℚ) (h1 : op P1 = .ok v1) (h2 : op P2 = .ok v2) :
    sumOver op [P1, P2] 0 = .ok (v1 + v2) := by
  simp [sumOver, h1, h2, zero_add]

/-- Claim C3: composition additivity — whenever the per-instance operation
succeeds on `P1` and on `P2`, each composition function on `[P1, P2]`
returns the sum of the two single-instance results. -/
theorem composition_additivity (R z : ℚ) (phi : Option ℚ) (P1 P2 : Potential) :
    (∀ v1 v2, evaluatePotentials R z phi (.pot P1) = .ok v1 →
      evaluatePotentials R z phi (.pot P2) = .ok v2 →
      evaluatePotentials R z phi (.list [P1, P2]) = .ok (v1 + v2)) ∧
    (∀ v1 v2, evaluateDensities R z phi (.pot P1) = .ok v1 →
      evaluateDensities R z phi (.pot P2) = .ok v2 →
      evaluateDensities R z phi (.list [P1, P2]) = .ok (v1 + v2)) ∧
    (∀ v1 v2, evaluateRforces R z phi (.pot P1) = .ok v1 →
      evaluateRforces R z phi (.pot P2) = .ok v2 →
      evaluateRforces R z phi (.list [P1, P2]) = .ok (v1 + v2)) ∧
    (∀ v1 v2, evaluatephiforces R z phi (.pot P1) = .ok v1 →
      evaluatephiforces R z phi (.pot P2) = .ok v2 →
      evaluatephiforces R z phi (.list [P1, P2]) = .ok (v1 + v2)) ∧
    (∀ v1 v2, evaluatezforces R z phi (.pot P1) = .ok v1 →
      evaluatezforces R z phi (.pot P2) = .ok v2 →
      evaluatezforces R z phi (.list [P1, P2]) = .ok (v1 + v2)) := by
  refine ⟨?_, ?_, ?_, ?_, ?_⟩ <;>
  · intro v1 v2 h1 h2
    simp only [evaluatePotentials, evaluateDensities, evaluateRforces,
      evaluatephiforces, evaluatezforces, composeEval] at h1 h2 ⊢
    exact sumOver_pair _ P1 P2 v1 v2 h1 h2

/-- Witness for C3: two copies of `testPot`, whose operations at `(1, 0)`
all return `2` (azimuthal force: `0`). -/
theorem composition_additivity_witness :
    evaluatePotentials 1 0 none (.list [testPot, testPot]) = .ok (2 + 2) ∧
    evaluateDensities 1 0 none (.list [testPot, testPot]) = .ok (2 + 2) ∧
    evaluateRforces 1 0 none (.list [testPot, testPot]) = .ok (2 + 2) ∧
    evaluatephiforces 1 0 none (.list [testPot, testPot]) = .ok (0 + 0) ∧
    evaluatezforces 1 0 none (.list [testPot, testPot]) = .ok (2 + 2) :=
  ⟨(composition_additivity 1 0 none testPot testPot).1 2 2
      (by simp [evaluatePotentials, composeEval, Potential.call, testPot])
      (by simp [evaluatePotentials, composeEval, Potential.call, testPot]),
   (composition_additivity 1 0 none testPot testPot).2.1 2 2
      (by simp [evaluateDensities, composeEval, Potential.dens, testPot])
      (by simp [evaluateDensities, composeEval, Potential.dens, testPot]),
   (composition_additivity 1 0 none testPot testPot).2.2.1 2 2
      (by simp [evaluateRforces, composeEval, Potential.Rforce, testPot])
      (by simp [evaluateRforces, composeEval, Potential.Rforce, testPot]),
   (composition_additivity 1 0 none testPot testPot).2.2.2.1 0 0
      (by simp [evaluatephiforces, composeEval, Potential.phiforce, testPot])
      (by simp [evaluatephiforces, composeEval, Potential.phiforce, testPot]),
   (composition_additivity 1 0 none testPot testPot).2.2.2.2 2 2
      (by simp [evaluatezforces, composeEval, Potential.zforce, testPot])
      (by simp [evaluatezforces, composeEval, Potential.zforce, testPot])⟩

lemma sumOver_dens_mem_raises (R z : ℚ) (phi : Option ℚ) (p : Potential)
    (hnone : p.rawDens = none) :
    ∀ (l : List Potential) (acc : ℚ), p ∈ l →
      ∃ m, sumOver (fun q => q.dens R z phi) l acc = .error (.potentialError m) := by
  intro l
  induction l with
  | nil => intro acc hmem; exact absurd hmem (List.not_mem_nil p)
  | cons q l ih =>
    intro acc hmem
    cases hq : q.rawDens with
    | none => exact ⟨msgNoDens, by simp [sumOver, Potential.dens, hq]⟩
    | some f =>
      have hp : p ∈ l := by
        rcases List.mem_cons.mp hmem with h | h
        · rw [h] at hnone; simp [hq] at hnone
        · exact h
      obtain ⟨m, hm⟩ := ih (acc + q.amp * f R z phi) hp
      exact ⟨m, by simpa [sumOver, Potential.dens, hq] using hm⟩

/-- Claim C5: an evaluation operation raises `PotentialError` exactly when the
variant lacks the corresponding raw implementation — `dens`, `__call__`,
`Rforce` and `zforce` alike — and `evaluateDensities` on a list containing
a density-less variant also raises a `PotentialError`. -/
theorem missing_raw_raises (p : Potential) (R z : ℚ) (phi : Option ℚ)
    (l : List Potential) :
    (p.rawDens = none → p.dens R z phi = .error (.potentialError msgNoDens)) ∧
    (p.rawDens = none → p ∈ l →
      ∃ m, evaluateDensities R z phi (.list l) = .error (.potentialError m)) ∧
    (p.rawDens ≠ none → ∃ v, p.dens R z phi = .ok v) ∧
    (p.rawEvaluate = none → p.call R z phi = .error (.potentialError msgNoEvaluate)) ∧
    (p.rawEvaluate ≠ none → ∃ v, p.call R z phi = .ok v) ∧
    (p.rawRforce = none → p.Rforce R z phi = .error (.potentialError msgNoRforce)) ∧
    (p.rawRforce ≠ none → ∃ v, p.Rforce R z phi = .ok v) ∧
    (p.rawZforce = none → p.zforce R z phi = .error (.potentialError msgNoZforce)) ∧
    (p.rawZforce ≠ none → ∃ v, p.zforce R z phi = .ok v) := by
  refine ⟨fun h => by simp [Potential.dens, h], fun h hmem => ?_,
    fun h => ?_, fun h => by simp [Potential.call, h], fun h => ?_,
    fun h => by simp [Potential.Rforce, h], fun h => ?_,
    fun h => by simp [Potential.zforce, h], fun h => ?_⟩
  · simpa [evaluateDensities, composeEval] using
      sumOver_dens_mem_raises R z phi p h l 0 hmem
  · obtain ⟨f, hf⟩ := Option.ne_none_iff_exists.mp h
    exact ⟨p.amp * f R z phi, by simp [Potential.dens, hf.symm]⟩
  · obtain ⟨f, hf⟩ := Option.ne_none_iff_exists.mp h
    exact ⟨p.amp * f R z phi, by simp [Potential.call, hf.symm]⟩
  · obtain ⟨f, hf⟩ := Option.ne_none_iff_exists.mp h
    exact ⟨p.amp * f R z phi, by simp [Potential.Rforce, hf.symm]⟩
  · obtain ⟨f, hf⟩ := Option.ne_none_iff_exists.mp h
    exact ⟨p.amp * f R z phi, by simp [Potential.zforce, hf.symm]⟩

/-- Witness for C5: `testPotNoDens` (raw density, evaluate and vertical
force missing; raw radial force present) and the list `[testPotNoDens]`,
plus `testPot` for the operations whose raw implementation is present. -/
theorem missing_raw_raises_witness :
    testPotNoDens.dens 1 0 none = .error (.potentialError msgNoDens) ∧
    (∃ m, evaluateDensities 1 0 none (.list [testPotNoDens]) =
      .error (.potentialError m)) ∧
    testPotNoDens.call 1 0 none = .error (.potentialError msgNoEvaluate) ∧
    testPotNoDens.zforce 1 0 none = .error (.potentialError msgNoZforce) ∧
    (∃ v, testPotNoDens.Rforce 1 0 none = .ok v) ∧
    (∃ v, testPot.dens 1 0 none = .ok v) ∧
    (∃ v, testPot.call 1 0 none = .ok v) ∧
    (∃ v, testPot.zforce 1 0 none = .ok v) :=
  ⟨(missing_raw_raises testPotNoDens 1 0 none [testPotNoDens]).1 rfl,
   (missing_raw_raises testPotNoDens 1 0 none [testPotNoDens]).2.1 rfl
     (List.mem_singleton.mpr rfl),
   (missing_raw_raises testPotNoDens 1 0 none [testPotNoDens]).2.2.2.1 rfl,
   (missing_raw_raises testPotNoDens 1 0 none [testPotNoDens]).2.2.2.2.2.2.2.1 rfl,
   (missing_raw_raises testPotNoDens 1 0 none [testPotNoDens]).2.2.2.2.2.2.1
     (by simp [testPotNoDens]),
   (missing_raw_raises testPot 1 0 none [testPot]).2.2.1 (by simp [testPot]),
   (missing_raw_raises testPot 1 0 none [testPot]).2.2.2.2.1 (by simp [testPot]),
   (missing_raw_raises testPot 1 0 none [testPot]).2.2.2.2.2.2.2.2
     (by simp [testPot])⟩

/-- Claim C1: for a potential whose radial force at `(R=1, z=0)` is a nonzero
value `v`, `normalize(f)` (with `f ≥ 0`; Python's `True` is the case
`f = 1`) succeeds and multiplies the amplitude by `f / |v|`, after which
the magnitude of the radial force at `(1, 0)` is exactly `f`. -/
theorem normalize_scales_to_target (p : Potential) (f v : ℚ) (hf : 0 ≤ f)
    (hv : p.Rforce 1 0 none = .ok v) (hv0 : v ≠ 0) :
    ∃ p', p.normalize f = .ok p' ∧
      p'.amp = p.amp * (f / |v|) ∧
      ∃ w, p'.Rforce 1 0 none = .ok w ∧ |w| = f := by
  have habs : |v| ≠ 0 := abs_ne_zero.mpr hv0
  cases hr : p.rawRforce with
  | none => rw [Potential.Rforce, hr] at hv; simp at hv
  | some g =>
    have hveq : p.amp * g 1 0 none = v := by
      rw [Potential.Rforce, hr] at hv
      exact Except.ok.inj hv
    refine ⟨{ p with amp := p.amp * (f / |v|) }, ?_, rfl, ?_⟩
    · rw [Potential.normalize, hv]
      simp [habs]
    · refine ⟨p.amp * (f / |v|) * g 1 0 none, by simp [Potential.Rforce, hr], ?_⟩
      have hw : p.amp * (f / |v|) * g 1 0 none = f / |v| * v := by
        rw [← hveq]; ring
      rw [hw]
      calc abs (f / abs v * v) = abs (f / abs v) * abs v := abs_mul _ _
        _ = f / abs v * abs v := by rw [abs_of_nonneg (div_nonneg hf (abs_nonneg v))]
        _ = f := div_mul_cancel₀ f habs

/-- Witness for C1: `testPot` has radial force `2` at `(1, 0)`;
`normalize(1)` rescales the amplitude by `1/2` and the force magnitude
becomes `1`. -/
theorem normalize_scales_to_target_witness :
    ∃ p', testPot.normalize 1 = .ok p' ∧
      p'.amp = testPot.amp * (1 / |(2 : ℚ)|) ∧
      ∃ w, p'.Rforce 1 0 none = .ok w ∧ |w| = 1 :=
  normalize_scales_to_target testPot 1 2 (by norm_num)
    (by simp [Potential.Rforce, testPot]) (by norm_num)

/-- Claim C8, evaluation of the code at the failing input: the potential
`zeroForcePot` (amplitude `1`, raw radial force identically `0`) has
radial force `0` at the reference point `(1, 0)`, and `normalize(1.)`
raises no `PotentialError` at all — the numpy float64 division
`1./nu.fabs(0.)` yields `inf` with only a `RuntimeWarning`, and the
in-place multiplication silently stores that non-finite amplitude,
against the spec's finite-nonzero amplitude invariant. -/
theorem normalize_zero_force_stores_non_finite :
    zeroForcePot.Rforce 1 0 none = .ok 0 ∧
    zeroForcePot.normalize 1 = .nonFiniteAmp .inf := by
  have hr : zeroForcePot.Rforce 1 0 none = .ok 0 := by
    simp [Potential.Rforce, zeroForcePot]
  refine ⟨hr, ?_⟩
  rw [Potential.normalize, hr]
  norm_num [nonFiniteNewAmp, zeroForcePot]

end Galpy
